import Mathlib

/-!
# Verification of the extraction core of `projet_ws.py`

This file embeds the extraction pipeline of the scraper `projet_ws.py`
(numeric normalizer `clean_to_float`, area sub-extractor
`extract_area_details`, field extractor `get_text_or_default` /
`extract_detail`, link extractor `extract_listing_links`) as executable
Lean definitions, and proves the testable properties stated in the
design document about them.

Modelling conventions:
* Python strings are `String` / `List Char`; Python floats carry no
  rounding in the fragment verified here (values are only parsed, never
  added or multiplied), so they are modelled exactly as rationals `ℚ`.
* The parsed HTML tree produced by the (out-of-scope) parse collaborator
  is modelled by the type `Dom`, a first-child/next-sibling forest of
  element and text nodes.  An element carries its tag name, its list of
  CSS classes and an optional `href` attribute.
* `BeautifulSoup.find(tag, class_=c)` is pre-order search for the first
  element with the given tag whose class list contains `c`;
  `Tag.text` is the concatenation of all descendant text nodes;
  `Tag.decompose()` is modelled functionally: the function
  `docAfterAreaExtract` returns the document as it stands after the
  single `decompose` call performed by `extract_area_details`.
-/

/-! ## Python string primitives -/

/-- The non-breaking-space character `U+00A0` (`'\xa0'` in the source). -/
def nbsp : Char := Char.ofNat 160

/-- Whitespace as stripped by Python `str.strip()` (restricted to the
characters that can actually occur here). -/
def pyIsSpace (c : Char) : Bool :=
  c = ' ' || c = '\t' || c = '\n' || c = '\r' ||
  c = Char.ofNat 11 || c = Char.ofNat 12 || c = nbsp

/-- Python `str.strip()` on a character list. -/
def pyStrip (l : List Char) : List Char :=
  ((l.dropWhile pyIsSpace).reverse.dropWhile pyIsSpace).reverse

/-- `str.strip()` at `String` level. -/
def pyStripS (s : String) : String := ⟨pyStrip s.data⟩

/-- Python `str.replace("m²", "")`: removes every (left-to-right,
non-overlapping) occurrence of the two-character unit glyph `m²`. -/
def removeM2 : List Char → List Char
  | x :: y :: rest =>
    if x = 'm' ∧ y = '²' then removeM2 rest
    else x :: removeM2 (y :: rest)
  | l => l

/-- Python `str.startswith` on character lists. -/
def startsWithL : List Char → List Char → Bool
  | [], _ => true
  | _ :: _, [] => false
  | p :: ps, c :: cs => p = c && startsWithL ps cs

/-- Value of a string of ASCII digits, as read by Python `int` / the
integer parts of `float`. -/
def natOfDigits (l : List Char) : ℕ :=
  l.foldl (fun a c => 10 * a + (c.toNat - 48)) 0

/-! ## The numeric normalizer `clean_to_float` (source lines 61–78) -/

/-- The cleaned string built by `clean_to_float` before the `float()`
call: strip `'\xa0'`, `' '`, `"m²"`, `'€'`; `str.strip()`; keep only
digits, commas and periods (`re.sub(r'[^\d,.]', '', …)`); then replace
every comma by a period (`str.replace` replaces all occurrences). -/
def cleanedForm (text : String) : List Char :=
  let t1 := text.data.filter (fun c => c ≠ nbsp)
  let t2 := t1.filter (fun c => c ≠ ' ')
  let t3 := removeM2 t2
  let t4 := t3.filter (fun c => c ≠ '€')
  let t5 := pyStrip t4
  let t6 := t5.filter (fun c => c.isDigit || c = ',' || c = '.')
  t6.map (fun c => if c = ',' then '.' else c)

/-- Python `float()` restricted to its use site: the argument is an
output of `cleanedForm`, hence a string over digits and periods.  On
that alphabet `float` succeeds exactly when the string contains at least
one digit and at most one period; the value is returned as a pair
(concatenated digits, number of fractional digits), i.e. the rational
`n / 10 ^ k`. -/
def pyParse (cs : List Char) : Option (ℕ × ℕ) :=
  if (∀ c ∈ cs, c.isDigit ∨ c = '.') ∧ (∃ c ∈ cs, c.isDigit) ∧
      cs.count '.' ≤ 1 then
    let ip := cs.takeWhile (fun c => c ≠ '.')
    let fp := (cs.dropWhile (fun c => c ≠ '.')).drop 1
    some (natOfDigits (ip ++ fp), fp.length)
  else none

/-- `clean_to_float` (source lines 61–78): clean the string, then
`float(cleaned_text) if cleaned_text else 0.0`, with `ValueError`
mapped to `0.0`. -/
def clean_to_float (text : String) : ℚ :=
  let cleaned := cleanedForm text
  if cleaned = [] then 0
  else
    match pyParse cleaned with
    | none => 0
    | some (n, k) => (n : ℚ) / 10 ^ k

/-! ### Evaluation helpers for `clean_to_float` -/

lemma pyParse_nil : pyParse [] = none := by decide

lemma clean_to_float_eval (s : String) (n k : ℕ)
    (h : pyParse (cleanedForm s) = some (n, k)) :
    clean_to_float s = (n : ℚ) / 10 ^ k := by
  unfold clean_to_float
  rcases hc : cleanedForm s with _ | ⟨c, cs⟩
  · rw [hc] at h
    simp [pyParse_nil] at h
  · rw [hc] at h
    simp [h]

lemma clean_to_float_of_parse_none (s : String)
    (h : pyParse (cleanedForm s) = none) :
    clean_to_float s = 0 := by
  unfold clean_to_float
  rcases hc : cleanedForm s with _ | ⟨c, cs⟩
  · simp
  · rw [hc] at h
    simp [h]

lemma clean_to_float_nonneg (s : String) : 0 ≤ clean_to_float s := by
  unfold clean_to_float
  rcases hc : cleanedForm s with _ | ⟨c, cs⟩
  · simp
  · rcases hp : pyParse (c :: cs) with _ | ⟨n, k⟩
    · simp [hp]
    · simp only [hp]
      have h1 : (0 : ℚ) ≤ (n : ℚ) := by positivity
      have h2 : (0 : ℚ) ≤ 10 ^ k := by positivity
      simp only [reduceCtorEq, if_false]
      exact div_nonneg h1 h2

/-- Replacing every comma by a period turns the comma count plus the
period count into the period count. -/
lemma count_dot_map_comma (l : List Char) :
    (l.map (fun c => if c = ',' then '.' else c)).count '.' =
      l.count ',' + l.count '.' := by
  induction l with
  | nil => simp
  | cons c cs ih =>
    by_cases h : c = ','
    · subst h
      simp [List.count_cons, ih]
      omega
    · by_cases h2 : c = '.'
      · subst h2
        simp [List.count_cons, ih]
        omega
      · simp [List.count_cons, h, h2, ih]

/-! ## The parsed document model

`Dom` is a forest of HTML nodes in first-child/next-sibling form:
`textD s rest` is a text node followed by its right siblings, and
`elemD tag cls href children rest` is an element followed by its right
siblings.  `Tag` is an element as returned by `BeautifulSoup.find`. -/

inductive Dom where
  | nilD : Dom
  | textD (s : List Char) (rest : Dom) : Dom
  | elemD (tag : String) (cls : List String) (href : Option (List Char))
      (children : Dom) (rest : Dom) : Dom
deriving DecidableEq, Repr

/-- An element of the parsed document, as returned by `find`. -/
structure Tag where
  tag : String
  cls : List String
  href : Option (List Char)
  children : Dom
deriving DecidableEq, Repr

/-- First-result choice used by pre-order search: the subtree result
takes precedence over the right-sibling result. -/
def orFirst (a b : Option Tag) : Option Tag :=
  match a with
  | some x => some x
  | none => b

@[simp] lemma orFirst_some (x : Tag) (b : Option Tag) :
    orFirst (some x) b = some x := rfl

@[simp] lemma orFirst_none (b : Option Tag) : orFirst none b = b := rfl

/-- `soup.find(tag, class_=…)`: first element, in document (pre-)order,
satisfying the predicate on (tag name, class list). -/
def findF (p : String → List String → Bool) : Dom → Option Tag
  | .nilD => none
  | .textD _ r => findF p r
  | .elemD t c h ch r =>
    if p t c then some ⟨t, c, h, ch⟩
    else orFirst (findF p ch) (findF p r)

/-- `Tag.text` of BeautifulSoup: concatenation of all descendant text
nodes in document order (applied to the children forest of the tag). -/
def domText : Dom → List Char
  | .nilD => []
  | .textD s r => s ++ domText r
  | .elemD _ _ _ ch r => domText ch ++ domText r

/-- `find_all("a", href=True)`: the `href` values of all descendant
anchor elements, in document order. -/
def collectHrefs : Dom → List (List Char)
  | .nilD => []
  | .textD _ r => collectHrefs r
  | .elemD t _ h ch r =>
    (match t, h with
     | "a", some hr => [hr]
     | _, _ => []) ++ collectHrefs ch ++ collectHrefs r

/-- Number of nodes (text or element) in a forest. -/
def domSize : Dom → ℕ
  | .nilD => 0
  | .textD _ r => 1 + domSize r
  | .elemD _ _ _ ch r => 1 + domSize ch + domSize r

/-- `tag.decompose()` applied to the first match of `q` in a forest:
removes that node (with its whole subtree); the boolean reports whether
a match was found. -/
def removeFirstF (q : String → List String → Bool) : Dom → Dom × Bool
  | .nilD => (.nilD, false)
  | .textD s r =>
    let p := removeFirstF q r
    (.textD s p.1, p.2)
  | .elemD t c h ch r =>
    if q t c then (r, true)
    else
      let pc := removeFirstF q ch
      if pc.2 then (.elemD t c h pc.1 r, true)
      else
        let pr := removeFirstF q r
        (.elemD t c h ch pr.1, pr.2)

/-- The document-level effect of `extract_area_details`: inside the
first element matching `p` (and only there), decompose the first
descendant matching `q`.  The boolean reports whether a `p`-element was
found. -/
def decomposeInFirst (p q : String → List String → Bool) :
    Dom → Dom × Bool
  | .nilD => (.nilD, false)
  | .textD s r =>
    let pr := decomposeInFirst p q r
    (.textD s pr.1, pr.2)
  | .elemD t c h ch r =>
    if p t c then (.elemD t c h (removeFirstF q ch).1 r, true)
    else
      let pc := decomposeInFirst p q ch
      if pc.2 then (.elemD t c h pc.1 r, true)
      else
        let pr := decomposeInFirst p q r
        (.elemD t c h ch pr.1, pr.2)

/-! ## Structural identifiers (the fixed class vocabulary) -/

def isWrapperDiv (t : String) (c : List String) : Bool :=
  t = "div" && c.contains "ep-search-list-wrapper"

def isAreaDiv (t : String) (c : List String) : Bool :=
  t = "div" && c.contains "ep-area"

def isTerrainSpan (t : String) (c : List String) : Bool :=
  t = "span" && c.contains "dtl-main-surface-terrain"

def isPriceDiv (t : String) (c : List String) : Bool :=
  t = "div" && c.contains "ep-price"

def isTitleDiv (t : String) (c : List String) : Bool :=
  t = "div" && c.contains "ep-title"

def isRoomDiv (t : String) (c : List String) : Bool :=
  t = "div" && c.contains "ep-room"

/-! ## Link extractor `extract_listing_links` (source lines 33–55) -/

def BASE_URL : String := "https://www.etreproprio.com"

/-- The per-anchor classification of the loop body (lines 44–50):
relative advertisement links are made absolute with `BASE_URL`,
already-absolute advertisement links are kept as they are, everything
else is dropped. -/
def classifyHref (href : List Char) : Option (List Char) :=
  if startsWithL "/immobilier-".data href then
    some (BASE_URL.data ++ href)
  else if startsWithL (BASE_URL.data ++ "/immobilier-".data) href then
    some href
  else none

/-- `extract_listing_links`: locate the results wrapper (absent wrapper
gives the empty result, with only a printed warning), classify every
anchor `href` in it, and deduplicate (`list(set(links))`, modelled as a
`Finset` since the set order is unspecified). -/
def extract_listing_links (soup : Dom) : Finset (List Char) :=
  match findF isWrapperDiv soup with
  | none => ∅
  | some w => ((collectHrefs w.children).filterMap classifyHref).toFinset

/-! ## Area sub-extractor `extract_area_details` (source lines 81–112) -/

/-- The dictionary `{"area_bati": …, "area_terrain": …}`. -/
structure AreaData where
  area_bati : ℚ
  area_terrain : ℚ
deriving DecidableEq, Repr

/-- `extract_area_details`: find the `div.ep-area` container (absent
container gives the zero record); read the terrain value from the
nested `span.dtl-main-surface-terrain` if present; decompose that span;
then read the remaining text of the container as the building area. -/
def extract_area_details (soup_obj : Dom) : AreaData :=
  match findF isAreaDiv soup_obj with
  | none => ⟨0, 0⟩
  | some area_div =>
    match findF isTerrainSpan area_div.children with
    | none =>
      ⟨clean_to_float ⟨pyStrip (domText area_div.children)⟩, 0⟩
    | some terrain_span =>
      let terrain := clean_to_float ⟨domText terrain_span.children⟩
      let remaining := (removeFirstF isTerrainSpan area_div.children).1
      ⟨clean_to_float ⟨pyStrip (domText remaining)⟩, terrain⟩

/-- The state of the whole document after `extract_area_details` ran on
it: the `decompose()` call removed the first terrain span inside the
first `div.ep-area` (if both exist); nothing else changed. -/
def docAfterAreaExtract (doc : Dom) : Dom :=
  (decomposeInFirst isAreaDiv isTerrainSpan doc).1

/-! ## Field extractor `get_text_or_default` / `extract_detail`
(source lines 115–156)

`get_text_or_default` returns values of three different Python types
depending on `class_name`; it is modelled by one function per branch. -/

/-- `get_text_or_default(soup, 'ep-price', 0)`: absent marker gives the
default `0`; otherwise `clean_to_float(element.text.strip())`. -/
def priceField (soup : Dom) : ℚ :=
  match findF isPriceDiv soup with
  | none => 0
  | some e => clean_to_float ⟨pyStrip (domText e.children)⟩

/-- `get_text_or_default(soup, 'ep-title', "")`: absent marker gives
`""`; otherwise the stripped text verbatim. -/
def titleField (soup : Dom) : String :=
  match findF isTitleDiv soup with
  | none => ""
  | some e => ⟨pyStrip (domText e.children)⟩

/-- `get_text_or_default(soup, 'ep-room', 0)` fused with the final
`int(data['room']) if data['room'] else 0` of `extract_detail`: keep
only the digits of the stripped text; an empty digit string gives `0`,
otherwise its integer value. -/
def roomField (soup : Dom) : ℕ :=
  match findF isRoomDiv soup with
  | none => 0
  | some e =>
    let cleaned := pyStrip ((pyStrip (domText e.children)).filter Char.isDigit)
    if cleaned = [] then 0 else natOfDigits cleaned

/-- The Advertisement Record assembled by `extract_detail`. -/
structure Annonce where
  price : ℚ
  title : String
  area_bati : ℚ
  area_terrain : ℚ
  room : ℕ
deriving DecidableEq, Repr

/-- `extract_detail`: assemble the five-field record.  The source first
calls `extract_area_details(soup)` (line 140), whose `decompose()` call
mutates the shared soup, and only afterwards reads price, title and
room from that same soup object (lines 143–147); the model therefore
reads those three fields from `docAfterAreaExtract soup`. -/
def extract_detail (soup : Dom) : Annonce :=
  let area_results := extract_area_details soup
  let soup_after := docAfterAreaExtract soup
  { price := priceField soup_after
    title := titleField soup_after
    area_bati := area_results.area_bati
    area_terrain := area_results.area_terrain
    room := roomField soup_after }

/-! ## Concrete test documents -/

/-- An area container with own text `85 m²` and a nested land-area span
with text `320 m²`. -/
def docArea1 : Dom :=
  .elemD "div" ["ep-area"] none
    (.textD "85 m²".data
      (.elemD "span" ["dtl-main-surface-terrain"] none
        (.textD "320 m²".data .nilD) .nilD))
    .nilD

/-- An area container with text `60 m²` and no nested span. -/
def docArea2 : Dom :=
  .elemD "div" ["ep-area"] none (.textD "60 m²".data .nilD) .nilD

/-- A document with no area container at all. -/
def docNoArea : Dom :=
  .elemD "div" ["ep-other"] none (.textD "rien".data .nilD) .nilD

/-- A search-results page: wrapper with the three anchors of the spec's
example. -/
def docSearch : Dom :=
  .elemD "div" ["ep-search-list-wrapper"] none
    (.elemD "a" [] (some "/immobilier-123".data) .nilD
      (.elemD "a" [] (some "/autre-page".data) .nilD
        (.elemD "a" []
          (some "https://www.etreproprio.com/immobilier-456".data)
          .nilD .nilD)))
    .nilD

/-- A search-results page whose wrapper holds the same matching anchor
twice. -/
def docSearchDup : Dom :=
  .elemD "div" ["ep-search-list-wrapper"] none
    (.elemD "a" [] (some "/immobilier-123".data) .nilD
      (.elemD "a" [] (some "/immobilier-123".data) .nilD .nilD))
    .nilD

/-- An advertisement document with no price marker and no title marker,
but a room marker whose text is `3 pièces`. -/
def docRoomOnly : Dom :=
  .elemD "div" ["ep-room"] none (.textD "3 pièces".data .nilD) .nilD

/-- A pathological advertisement document whose only room marker sits
inside the land-area sub-element: the area container holds the text
`85 m²` and a terrain span whose children are the text `320 m²`
followed by a `div.ep-room` with text `3 pièces`.  The first
`extract_detail` step decomposes the span — room marker included —
before the room field is read. -/
def docRoomInSpan : Dom :=
  .elemD "div" ["ep-area"] none
    (.textD "85 m²".data
      (.elemD "span" ["dtl-main-surface-terrain"] none
        (.textD "320 m²".data
          (.elemD "div" ["ep-room"] none
            (.textD "3 pièces".data .nilD) .nilD))
        .nilD))
    .nilD

/-- A full advertisement document: price, title, area container with a
nested land-area span, room. -/
def docAd : Dom :=
  .elemD "div" ["ep-price"] none (.textD "1 234,56 €".data .nilD)
    (.elemD "div" ["ep-title"] none (.textD " Maison T4 ".data .nilD)
      (.elemD "div" ["ep-area"] none
        (.textD "85 m²".data
          (.elemD "span" ["dtl-main-surface-terrain"] none
            (.textD "320 m²".data .nilD) .nilD))
        (.elemD "div" ["ep-room"] none
          (.textD "3 pièces".data .nilD) .nilD)))

/-! ### Values of `clean_to_float` on the texts above -/

lemma clean_85 : clean_to_float "85 m²" = 85 := by
  rw [clean_to_float_eval "85 m²" 85 0 (by decide)]
  norm_num

lemma clean_320 : clean_to_float "320 m²" = 320 := by
  rw [clean_to_float_eval "320 m²" 320 0 (by decide)]
  norm_num

lemma clean_60 : clean_to_float "60 m²" = 60 := by
  rw [clean_to_float_eval "60 m²" 60 0 (by decide)]
  norm_num

lemma clean_price : clean_to_float "1 234,56 €" = 1234.56 := by
  rw [clean_to_float_eval "1 234,56 €" 123456 2 (by decide)]
  norm_num

/-! ## Structural lemmas about removal and the decompose effect -/

lemma removeFirstF_of_find_none (q : String → List String → Bool)
    (d : Dom) (h : findF q d = none) : removeFirstF q d = (d, false) := by
  induction d with
  | nilD => rfl
  | textD s r ihr =>
    rw [findF] at h
    simp [removeFirstF, ihr h]
  | elemD t c hh ch r ihc ihr =>
    rw [findF] at h
    cases hq : q t c with
    | true => rw [hq] at h; simp at h
    | false =>
      rw [hq] at h
      simp only [Bool.false_eq_true, if_false] at h
      cases hch : findF q ch with
      | some x => rw [hch] at h; simp at h
      | none =>
        rw [hch] at h
        rw [orFirst_none] at h
        simp [removeFirstF, hq, ihc hch, ihr h]

lemma removeFirstF_of_find_some (q : String → List String → Bool)
    (d : Dom) (s : Tag) (h : findF q d = some s) :
    (removeFirstF q d).2 = true ∧
    domSize (removeFirstF q d).1 + (1 + domSize s.children) = domSize d := by
  induction d with
  | nilD => rw [findF] at h; simp at h
  | textD str r ihr =>
    rw [findF] at h
    obtain ⟨h1, h2⟩ := ihr h
    refine ⟨?_, ?_⟩
    · simp [removeFirstF, h1]
    · simp only [removeFirstF, domSize]
      omega
  | elemD t c hh ch r ihc ihr =>
    rw [findF] at h
    cases hq : q t c with
    | true =>
      rw [hq] at h
      simp only [if_true] at h
      have hs : s = ⟨t, c, hh, ch⟩ := (Option.some.inj h).symm
      subst hs
      refine ⟨by simp [removeFirstF, hq], ?_⟩
      simp only [removeFirstF, hq, if_true, domSize]
      omega
    | false =>
      rw [hq] at h
      simp only [Bool.false_eq_true, if_false] at h
      cases hch : findF q ch with
      | some x =>
        rw [hch, orFirst_some] at h
        have hx : x = s := Option.some.inj h
        subst hx
        obtain ⟨h1, h2⟩ := ihc hch
        refine ⟨?_, ?_⟩
        · simp [removeFirstF, hq, h1]
        · simp only [removeFirstF, hq, Bool.false_eq_true, if_false, h1,
            if_true, domSize]
          omega
      | none =>
        rw [hch, orFirst_none] at h
        obtain ⟨h1, h2⟩ := ihr h
        have hcu := removeFirstF_of_find_none q ch hch
        refine ⟨?_, ?_⟩
        · simp [removeFirstF, hq, hcu, h1]
        · simp only [removeFirstF, hq, Bool.false_eq_true, if_false, hcu,
            if_false, domSize]
          omega

lemma decomposeInFirst_of_find_none (p q : String → List String → Bool)
    (d : Dom) (h : findF p d = none) :
    decomposeInFirst p q d = (d, false) := by
  induction d with
  | nilD => rfl
  | textD s r ihr =>
    rw [findF] at h
    simp [decomposeInFirst, ihr h]
  | elemD t c hh ch r ihc ihr =>
    rw [findF] at h
    cases hq : p t c with
    | true => rw [hq] at h; simp at h
    | false =>
      rw [hq] at h
      simp only [Bool.false_eq_true, if_false] at h
      cases hch : findF p ch with
      | some x => rw [hch] at h; simp at h
      | none =>
        rw [hch, orFirst_none] at h
        simp [decomposeInFirst, hq, ihc hch, ihr h]

/-- When the located container holds no nested terrain element, the
`decompose` step does nothing: the document is returned unchanged. -/
lemma decomposeInFirst_eq_self_of_no_span
    (p q : String → List String → Bool) (d : Dom) (ad : Tag)
    (h : findF p d = some ad) (h2 : findF q ad.children = none) :
    decomposeInFirst p q d = (d, true) := by
  induction d with
  | nilD => rw [findF] at h; simp at h
  | textD s r ihr =>
    rw [findF] at h
    simp [decomposeInFirst, ihr h]
  | elemD t c hh ch r ihc ihr =>
    rw [findF] at h
    cases hq : p t c with
    | true =>
      rw [hq] at h
      simp only [if_true] at h
      have hs : ad = ⟨t, c, hh, ch⟩ := (Option.some.inj h).symm
      subst hs
      have hru := removeFirstF_of_find_none q ch h2
      simp [decomposeInFirst, hq, hru]
    | false =>
      rw [hq] at h
      simp only [Bool.false_eq_true, if_false] at h
      cases hch : findF p ch with
      | some x =>
        rw [hch, orFirst_some] at h
        have hx : x = ad := Option.some.inj h
        subst hx
        simp [decomposeInFirst, hq, ihc hch]
      | none =>
        rw [hch, orFirst_none] at h
        have hcu := decomposeInFirst_of_find_none p q ch hch
        simp [decomposeInFirst, hq, hcu, ihr h]

/-- When the located container does hold a nested terrain element, the
`decompose` step removes exactly that subtree: the first `p`-element of
the new document is the old one with the removal applied to its
children, and the node count drops by the size of that first removal. -/
lemma decomposeInFirst_of_find_some
    (p q : String → List String → Bool) (d : Dom) (ad : Tag)
    (h : findF p d = some ad) :
    (decomposeInFirst p q d).2 = true ∧
    findF p (decomposeInFirst p q d).1 =
      some ⟨ad.tag, ad.cls, ad.href, (removeFirstF q ad.children).1⟩ ∧
    domSize (decomposeInFirst p q d).1 + domSize ad.children =
      domSize d + domSize (removeFirstF q ad.children).1 := by
  induction d with
  | nilD => rw [findF] at h; simp at h
  | textD s r ihr =>
    rw [findF] at h
    obtain ⟨h1, h2, h3⟩ := ihr h
    refine ⟨by simp [decomposeInFirst, h1], ?_, ?_⟩
    · simp only [decomposeInFirst]
      rw [findF]
      exact h2
    · simp only [decomposeInFirst, domSize]
      omega
  | elemD t c hh ch r ihc ihr =>
    rw [findF] at h
    cases hq : p t c with
    | true =>
      rw [hq] at h
      simp only [if_true] at h
      have hs : ad = ⟨t, c, hh, ch⟩ := (Option.some.inj h).symm
      subst hs
      refine ⟨by simp [decomposeInFirst, hq], ?_, ?_⟩
      · simp only [decomposeInFirst, hq, if_true]
        rw [findF]
        simp [hq]
      · simp only [decomposeInFirst, hq, if_true, domSize]
        omega
    | false =>
      rw [hq] at h
      simp only [Bool.false_eq_true, if_false] at h
      cases hch : findF p ch with
      | some x =>
        rw [hch, orFirst_some] at h
        have hx : x = ad := Option.some.inj h
        subst hx
        obtain ⟨h1, h2, h3⟩ := ihc hch
        refine ⟨by simp [decomposeInFirst, hq, h1], ?_, ?_⟩
        · simp only [decomposeInFirst, hq, Bool.false_eq_true, if_false,
            h1, if_true]
          rw [findF]
          simp [hq, h2]
        · simp only [decomposeInFirst, hq, Bool.false_eq_true, if_false,
            h1, if_true, domSize]
          omega
      | none =>
        rw [hch, orFirst_none] at h
        obtain ⟨h1, h2, h3⟩ := ihr h
        have hcu := decomposeInFirst_of_find_none p q ch hch
        refine ⟨by simp [decomposeInFirst, hq, hcu, h1], ?_, ?_⟩
        · simp only [decomposeInFirst, hq, Bool.false_eq_true, if_false,
            hcu, if_false]
          rw [findF]
          simp [hq, hch, h2]
        · simp only [decomposeInFirst, hq, Bool.false_eq_true, if_false,
            hcu, if_false, domSize]
          omega

/-- The document is unchanged by `extract_area_details` whenever the
area container is absent, or present without a terrain sub-element. -/
lemma docAfter_eq_self_of_no_span (doc : Dom)
    (h : ((findF isAreaDiv doc).bind
      fun ad => findF isTerrainSpan ad.children) = none) :
    docAfterAreaExtract doc = doc := by
  unfold docAfterAreaExtract
  cases had : findF isAreaDiv doc with
  | none => rw [decomposeInFirst_of_find_none _ _ _ had]
  | some ad =>
    rw [had] at h
    simp only [Option.bind] at h
    rw [decomposeInFirst_eq_self_of_no_span _ _ _ ad had h]

/-- Removal cannot create matches: a predicate with no match in a
forest still has none after `removeFirstF`. -/
lemma findF_none_removeFirstF (pred q : String → List String → Bool)
    (d : Dom) (h : findF pred d = none) :
    findF pred (removeFirstF q d).1 = none := by
  induction d with
  | nilD => exact h
  | textD s r ihr =>
    rw [findF] at h
    simp only [removeFirstF]
    rw [findF]
    exact ihr h
  | elemD t c hh ch r ihc ihr =>
    rw [findF] at h
    cases hpr : pred t c with
    | true => rw [hpr] at h; simp at h
    | false =>
      rw [hpr] at h
      simp only [Bool.false_eq_true, if_false] at h
      cases hch : findF pred ch with
      | some x => rw [hch] at h; simp at h
      | none =>
        rw [hch, orFirst_none] at h
        simp only [removeFirstF]
        cases hq : q t c with
        | true =>
          simp only [hq, if_true]
          exact h
        | false =>
          simp only [hq, Bool.false_eq_true, if_false]
          cases hrc : (removeFirstF q ch).2 with
          | true =>
            simp only [hrc, if_true]
            rw [findF, hpr]
            simp only [Bool.false_eq_true, if_false]
            rw [ihc hch, orFirst_none]
            exact h
          | false =>
            simp only [hrc, Bool.false_eq_true, if_false]
            rw [findF, hpr]
            simp only [Bool.false_eq_true, if_false]
            rw [hch, orFirst_none]
            exact ihr h

/-- The decompose step cannot create matches either: a predicate with
no match in the document still has none after `decomposeInFirst`. -/
lemma findF_none_decomposeInFirst
    (pred p q : String → List String → Bool)
    (d : Dom) (h : findF pred d = none) :
    findF pred (decomposeInFirst p q d).1 = none := by
  induction d with
  | nilD => exact h
  | textD s r ihr =>
    rw [findF] at h
    simp only [decomposeInFirst]
    rw [findF]
    exact ihr h
  | elemD t c hh ch r ihc ihr =>
    rw [findF] at h
    cases hpr : pred t c with
    | true => rw [hpr] at h; simp at h
    | false =>
      rw [hpr] at h
      simp only [Bool.false_eq_true, if_false] at h
      cases hch : findF pred ch with
      | some x => rw [hch] at h; simp at h
      | none =>
        rw [hch, orFirst_none] at h
        simp only [decomposeInFirst]
        cases hp : p t c with
        | true =>
          simp only [hp, if_true]
          rw [findF, hpr]
          simp only [Bool.false_eq_true, if_false]
          rw [findF_none_removeFirstF pred q ch hch, orFirst_none]
          exact h
        | false =>
          simp only [hp, Bool.false_eq_true, if_false]
          cases hdc : (decomposeInFirst p q ch).2 with
          | true =>
            simp only [hdc, if_true]
            rw [findF, hpr]
            simp only [Bool.false_eq_true, if_false]
            rw [ihc hch, orFirst_none]
            exact h
          | false =>
            simp only [hdc, Bool.false_eq_true, if_false]
            rw [findF, hpr]
            simp only [Bool.false_eq_true, if_false]
            rw [hch, orFirst_none]
            exact ihr h

/-- A marker absent from the input document is still absent from the
document as mutated by `extract_area_details`. -/
lemma findF_none_docAfter (pred : String → List String → Bool)
    (doc : Dom) (h : findF pred doc = none) :
    findF pred (docAfterAreaExtract doc) = none := by
  unfold docAfterAreaExtract
  exact findF_none_decomposeInFirst pred isAreaDiv isTerrainSpan doc h

/-! ### Further small helpers -/

lemma startsWithL_head (a : Char) (ps l : List Char)
    (h : startsWithL (a :: ps) l = true) : l.head? = some a := by
  cases l with
  | nil => simp [startsWithL] at h
  | cons c cs =>
    simp only [startsWithL, Bool.and_eq_true, decide_eq_true_eq] at h
    simp [h.1]

/-- A relative advertisement link and an absolute one cannot coincide:
the former begins with `/`, the latter with `h`. -/
lemma rel_abs_exclusive (l : List Char)
    (h1 : startsWithL "/immobilier-".data l = true)
    (h2 : startsWithL (BASE_URL.data ++ "/immobilier-".data) l = true) :
    False := by
  have e1 : "/immobilier-".data = '/' :: "immobilier-".data := by decide
  have e2 : BASE_URL.data ++ "/immobilier-".data =
      'h' :: "ttps://www.etreproprio.com/immobilier-".data := by decide
  rw [e1] at h1
  rw [e2] at h2
  have q1 := startsWithL_head _ _ _ h1
  have q2 := startsWithL_head _ _ _ h2
  rw [q1] at q2
  exact absurd (Option.some.inj q2) (by decide)

/-! ## The claims -/

/-- Claim C1: `extract_area_details` satisfies the three specified
cases.  For a document whose area container has own text `85 m²` and a
nested land-area sub-element with text `320 m²` the result is
`(area_bati = 85, area_terrain = 320)` (the sub-element's text is
excised before the building-area text is read, otherwise the container
text would clean to the corrupted digit string `85320`); for a
container with no nested sub-element and text `60 m²` the result is
`(60, 0)`; for a document with no area container at all the result is
`(0, 0)`. -/
theorem C1_extract_areas_cases :
    extract_area_details docArea1 = ⟨85, 320⟩ ∧
    extract_area_details docArea2 = ⟨60, 0⟩ ∧
    extract_area_details docNoArea = ⟨0, 0⟩ := by
  refine ⟨?_, ?_, rfl⟩
  · have e : extract_area_details docArea1 =
        ⟨clean_to_float "85 m²", clean_to_float "320 m²"⟩ := rfl
    rw [e, clean_85, clean_320]
  · have e : extract_area_details docArea2 =
        ⟨clean_to_float "60 m²", 0⟩ := rfl
    rw [e, clean_60]

/-- Claim C2: the numeric normalizer returns the values of the spec's
examples: `clean_to_float "" = 0.0`,
`clean_to_float "1 234,56 €" = 1234.56`, `clean_to_float "abc" = 0.0`. -/
theorem C2_normalize_examples :
    clean_to_float "" = 0 ∧
    clean_to_float "1 234,56 €" = 1234.56 ∧
    clean_to_float "abc" = 0 := by
  refine ⟨rfl, clean_price, ?_⟩
  exact clean_to_float_of_parse_none "abc" (by decide)

/-- Claim C3: `extract_listing_links` keeps exactly the anchors whose
`href` starts with the relative advertisement prefix `/immobilier-`
(prefixed with the base origin) or with the absolute form of that
prefix; everything else is discarded; the result is deduplicated (a
finite set); an absent wrapper yields the empty set.  In particular the
three anchors `/immobilier-123`, `/autre-page`,
`https://www.etreproprio.com/immobilier-456` yield exactly the two
absolute advertisement URLs, and a duplicated matching anchor collapses
to one entry. -/
theorem C3_listing_links :
    (∀ (doc : Dom) (u : List Char),
      u ∈ extract_listing_links doc ↔
        ∃ w, findF isWrapperDiv doc = some w ∧
          ∃ h ∈ collectHrefs w.children,
            (startsWithL "/immobilier-".data h = true ∧
              u = BASE_URL.data ++ h) ∨
            (startsWithL (BASE_URL.data ++ "/immobilier-".data) h = true ∧
              u = h)) ∧
    extract_listing_links docSearch =
      ({"https://www.etreproprio.com/immobilier-123".data,
        "https://www.etreproprio.com/immobilier-456".data} :
        Finset (List Char)) ∧
    extract_listing_links docSearchDup =
      ({"https://www.etreproprio.com/immobilier-123".data} :
        Finset (List Char)) := by
  refine ⟨?_, by decide, by decide⟩
  intro doc u
  unfold extract_listing_links
  cases hw : findF isWrapperDiv doc with
  | none => simp
  | some w =>
    simp only [List.mem_toFinset, List.mem_filterMap]
    constructor
    · rintro ⟨h, hmem, hcl⟩
      refine ⟨w, rfl, h, hmem, ?_⟩
      unfold classifyHref at hcl
      by_cases h1 : startsWithL "/immobilier-".data h = true
      · rw [if_pos h1] at hcl
        exact Or.inl ⟨h1, (Option.some.inj hcl).symm⟩
      · rw [if_neg h1] at hcl
        by_cases h2 :
            startsWithL (BASE_URL.data ++ "/immobilier-".data) h = true
        · rw [if_pos h2] at hcl
          exact Or.inr ⟨h2, (Option.some.inj hcl).symm⟩
        · rw [if_neg h2] at hcl
          exact absurd hcl (by simp)
    · rintro ⟨w2, hww, h, hmem, hdisj⟩
      obtain rfl : w = w2 := Option.some.inj hww
      refine ⟨h, hmem, ?_⟩
      unfold classifyHref
      rcases hdisj with ⟨h1, rfl⟩ | ⟨h2, hu⟩
      · rw [if_pos h1]
      · rw [hu]
        have h1f : ¬ startsWithL "/immobilier-".data h = true :=
          fun h1 => rel_abs_exclusive h h1 h2
        rw [if_neg h1f, if_pos h2]

/-- Witness for C3: the membership characterization applied at a
concrete document and URL. -/
theorem C3_witness :
    "https://www.etreproprio.com/immobilier-123".data ∈
      extract_listing_links docSearch :=
  (C3_listing_links.1 docSearch _).mpr
    ⟨⟨"div", ["ep-search-list-wrapper"], none,
      .elemD "a" [] (some "/immobilier-123".data) .nilD
        (.elemD "a" [] (some "/autre-page".data) .nilD
          (.elemD "a" []
            (some "https://www.etreproprio.com/immobilier-456".data)
            .nilD .nilD))⟩,
     by decide, "/immobilier-123".data, by decide,
     Or.inl ⟨by decide, by decide⟩⟩

/-- Claim C4, counterexample: the room conjunct is false as universally
stated.  In `docRoomInSpan` the document's (first and only) room marker
has stripped text `3 pièces`, yet `extract_detail` returns `room = 0`,
not `3`: the source reads the room field only after
`extract_area_details` has decomposed the terrain span, and this room
marker sits inside that span, so it is gone by the time
`get_text_or_default(soup, 'ep-room', 0)` runs. -/
theorem C4_counterexample :
    ((findF isRoomDiv docRoomInSpan).map
      fun e => pyStrip (domText e.children)) = some "3 pièces".data ∧
    (extract_detail docRoomInSpan).room = 0 ∧ (0 : ℕ) ≠ 3 := by
  decide

/-- Claim C4 as amended: a document with no price marker yields
`price = 0` and a document with no title marker yields `title = ""`
(removal cannot create markers, so these hold for the input document);
and the room conjunct holds for the room marker as found in the
document after the area sub-extraction has run — `extract_detail`
reads price, title and room from the soup already mutated by
`extract_area_details` — with text `3 pièces` stripped to the digit
`3` and parsed as the integer `3`. -/
theorem C4_field_defaults_amended :
    (∀ doc : Dom,
      findF isPriceDiv doc = none → (extract_detail doc).price = 0) ∧
    (∀ doc : Dom,
      findF isTitleDiv doc = none → (extract_detail doc).title = "") ∧
    (∀ (doc : Dom) (e : Tag),
      findF isRoomDiv (docAfterAreaExtract doc) = some e →
      pyStrip (domText e.children) = "3 pièces".data →
      (extract_detail doc).room = 3) := by
  refine ⟨?_, ?_, ?_⟩
  · intro doc h
    show priceField (docAfterAreaExtract doc) = 0
    simp only [priceField, findF_none_docAfter isPriceDiv doc h]
  · intro doc h
    show titleField (docAfterAreaExtract doc) = ""
    simp only [titleField, findF_none_docAfter isTitleDiv doc h]
  · intro doc e h ht
    show roomField (docAfterAreaExtract doc) = 3
    simp only [roomField, h]
    rw [ht]
    decide

/-- Witness for the amended C4 at a concrete document: no price marker,
no title marker, no area container (so the document is unmutated), one
room marker with text `3 pièces`. -/
theorem C4_witness :
    (extract_detail docRoomOnly).price = 0 ∧
    (extract_detail docRoomOnly).title = "" ∧
    (extract_detail docRoomOnly).room = 3 :=
  ⟨C4_field_defaults_amended.1 docRoomOnly (by decide),
   C4_field_defaults_amended.2.1 docRoomOnly (by decide),
   C4_field_defaults_amended.2.2 docRoomOnly
     ⟨"div", ["ep-room"], none, .textD "3 pièces".data .nilD⟩
     (by decide) (by decide)⟩

/-- Claim C5, counterexample: the claim asserts that an input cleaning
to `1,234,56` still parses to `1234.56` because only the last comma is
treated as the decimal point.  In the code `str.replace(",", ".")`
replaces every comma, the resulting `1.234.56` fails `float()`, and the
function falls back to `0.0`, which is not `1234.56`. -/
theorem C5_counterexample :
    clean_to_float "1,234,56" = 0 ∧ (0 : ℚ) ≠ 1234.56 :=
  ⟨clean_to_float_of_parse_none "1,234,56" (by decide), by norm_num⟩

/-- Claim C5 as amended: in the comma-to-period step every comma is
replaced by a period, so whenever the cleaned text contains two or more
separator characters in total (each now a period), the parse fails and
the function returns `0.0` instead of treating the last comma as the
decimal point. -/
theorem C5_amended (s : String)
    (h : 2 ≤ (cleanedForm s).count '.') : clean_to_float s = 0 := by
  apply clean_to_float_of_parse_none
  unfold pyParse
  rw [if_neg]
  intro hcond
  exact absurd hcond.2.2 (by omega)

/-- Witness for the amended C5 at the input `1,234,56`. -/
theorem C5_amended_witness :
    2 ≤ (cleanedForm "1,234,56").count '.' ∧
    clean_to_float "1,234,56" = 0 :=
  ⟨by decide, C5_amended "1,234,56" (by decide)⟩

/-- Claim C6, counterexample: extraction is not idempotent on the same
in-memory document.  On a document whose area container holds a nested
land-area sub-element, the first `extract_detail` call decomposes that
sub-element as a side effect, so a second call on the resulting
document returns a different record (`area_terrain` becomes `0`). -/
theorem C6_counterexample :
    extract_detail (docAfterAreaExtract docAd) ≠ extract_detail docAd := by
  intro hEq
  have h1 : (extract_detail docAd).area_terrain =
      clean_to_float "320 m²" := rfl
  have h2 : (extract_detail (docAfterAreaExtract docAd)).area_terrain =
      0 := rfl
  rw [hEq, h1, clean_320] at h2
  norm_num at h2

/-- Claim C6 as amended: extraction is idempotent on every document
whose area container is absent or holds no nested land-area
sub-element — the first run leaves such documents unmutated, so a
second `extract_detail` run on the post-extraction document yields the
identical record.  (When a sub-element is present the first run removes
it and a second run can differ, as the counterexample shows.) -/
theorem C6_amended (doc : Dom)
    (h : ((findF isAreaDiv doc).bind
      fun ad => findF isTerrainSpan ad.children) = none) :
    extract_detail (docAfterAreaExtract doc) = extract_detail doc := by
  rw [docAfter_eq_self_of_no_span doc h]

/-- Witness for the amended C6 at a concrete document without a terrain
sub-element. -/
theorem C6_amended_witness :
    ((findF isAreaDiv docArea2).bind
      fun ad => findF isTerrainSpan ad.children) = none ∧
    extract_detail (docAfterAreaExtract docArea2) =
      extract_detail docArea2 :=
  ⟨by decide, C6_amended docArea2 (by decide)⟩

/-- Claim C7: `clean_to_float` never raises: whenever the cleaned
string is empty or not parseable as a float, the function returns `0.0`
instead of propagating an error. -/
theorem C7_never_raises (s : String)
    (h : cleanedForm s = [] ∨ pyParse (cleanedForm s) = none) :
    clean_to_float s = 0 := by
  rcases h with h | h
  · unfold clean_to_float
    simp [h]
  · exact clean_to_float_of_parse_none s h

/-- Witness for C7 at the unparseable input `abc`. -/
theorem C7_witness :
    (cleanedForm "abc" = [] ∨ pyParse (cleanedForm "abc") = none) ∧
    clean_to_float "abc" = 0 :=
  ⟨Or.inl (by decide), C7_never_raises "abc" (Or.inl (by decide))⟩

/-- The alphabet of claim C8: digits, spaces, non-breaking spaces, the
currency and unit glyphs appearing in the source, and the two decimal
separators. -/
def allowedChar (c : Char) : Bool :=
  c.isDigit || c = ' ' || c = nbsp || c = '€' || c = 'm' || c = '²' ||
  c = ',' || c = '.'

/-- Claim C8: for every string composed of digits together with any
mixture of spaces, non-breaking spaces, currency or unit glyphs, and at
most one decimal separator (period or comma), `clean_to_float` returns
a value that is greater than or equal to `0`. -/
theorem C8_nonneg (s : String)
    (_h1 : ∀ c ∈ s.data, allowedChar c = true)
    (_h2 : s.data.count ',' + s.data.count '.' ≤ 1) :
    0 ≤ clean_to_float s :=
  clean_to_float_nonneg s

/-- Witness for C8 at the input `1 234,56 €`. -/
theorem C8_witness :
    (∀ c ∈ "1 234,56 €".data, allowedChar c = true) ∧
    "1 234,56 €".data.count ',' + "1 234,56 €".data.count '.' ≤ 1 ∧
    0 ≤ clean_to_float "1 234,56 €" :=
  ⟨by decide, by decide, C8_nonneg "1 234,56 €" (by decide) (by decide)⟩

/-- Claim C9: the record produced by `extract_detail` always contains
all five fields with their documented types — in the embedding the
result type `Annonce` itself has the five fields `price`, `title`,
`area_bati`, `area_terrain` (rationals), `room` (a natural number), so
every field is present and typed by construction, and extraction
failures degrade to `0` / `""` / `0` rather than an absent field.  The
substantive part proved here: the three numeric fields are always
non-negative, and the room count (a natural number) is non-negative as
an integer. -/
theorem C9_record_invariant (doc : Dom) :
    0 ≤ (extract_detail doc).price ∧
    0 ≤ (extract_detail doc).area_bati ∧
    0 ≤ (extract_detail doc).area_terrain ∧
    0 ≤ ((extract_detail doc).room : ℤ) := by
  refine ⟨?_, ?_, ?_, Int.ofNat_nonneg _⟩
  · show 0 ≤ priceField (docAfterAreaExtract doc)
    unfold priceField
    cases h : findF isPriceDiv (docAfterAreaExtract doc) with
    | none => simp
    | some e => simp [clean_to_float_nonneg]
  · show 0 ≤ (extract_area_details doc).area_bati
    unfold extract_area_details
    cases h : findF isAreaDiv doc with
    | none => simp
    | some ad =>
      cases h2 : findF isTerrainSpan ad.children with
      | none => simp [h2, clean_to_float_nonneg]
      | some ts => simp [h2, clean_to_float_nonneg]
  · show 0 ≤ (extract_area_details doc).area_terrain
    unfold extract_area_details
    cases h : findF isAreaDiv doc with
    | none => simp
    | some ad =>
      cases h2 : findF isTerrainSpan ad.children with
      | none => simp [h2]
      | some ts => simp [h2, clean_to_float_nonneg]

/-- Claim C10: `extract_area_details` mutates its input document.  If
the first area container holds a nested terrain sub-element, the call
removes (decomposes) exactly that sub-element in place: the document
shrinks by precisely the sub-element's node count, the area container
found afterwards is the old one with the first terrain span removed
from its children, and the document is genuinely different.  Documents
whose area container is absent or has no terrain sub-element are left
unchanged. -/
theorem C10_decompose_effect :
    (∀ doc : Dom,
      ((findF isAreaDiv doc).bind
        fun ad => findF isTerrainSpan ad.children) = none →
      docAfterAreaExtract doc = doc) ∧
    (∀ (doc : Dom) (ad s : Tag),
      findF isAreaDiv doc = some ad →
      findF isTerrainSpan ad.children = some s →
      docAfterAreaExtract doc ≠ doc ∧
      findF isAreaDiv (docAfterAreaExtract doc) =
        some ⟨ad.tag, ad.cls, ad.href,
          (removeFirstF isTerrainSpan ad.children).1⟩ ∧
      domSize (docAfterAreaExtract doc) + (1 + domSize s.children) =
        domSize doc) := by
  constructor
  · exact docAfter_eq_self_of_no_span
  · intro doc ad s had hspan
    obtain ⟨h1, h2, h3⟩ :=
      decomposeInFirst_of_find_some isAreaDiv isTerrainSpan doc ad had
    obtain ⟨r1, r2⟩ :=
      removeFirstF_of_find_some isTerrainSpan ad.children s hspan
    unfold docAfterAreaExtract
    refine ⟨?_, h2, by omega⟩
    intro he
    have hs := congrArg domSize he
    omega

/-- Witness for C10: a span-free document is unchanged, and a document
with a terrain sub-element is genuinely mutated. -/
theorem C10_witness :
    docAfterAreaExtract docArea2 = docArea2 ∧
    docAfterAreaExtract docArea1 ≠ docArea1 :=
  ⟨C10_decompose_effect.1 docArea2 (by decide),
   (C10_decompose_effect.2 docArea1
     ⟨"div", ["ep-area"], none,
       .textD "85 m²".data
         (.elemD "span" ["dtl-main-surface-terrain"] none
           (.textD "320 m²".data .nilD) .nilD)⟩
     ⟨"span", ["dtl-main-surface-terrain"], none,
       .textD "320 m²".data .nilD⟩
     (by decide) (by decide)).1⟩

